import Mathlib

/-
Shallow embedding of `sunpy/net/dataretriever/client.py`.

Conventions of the embedding:
  * Python dictionaries (the client's `map_`) become association lists over
    `String` keys with Python's update-in-place semantics (`pyInsert`).
  * Astropy/sunpy time values become `Int` (claims only compare and order
    them); a `sunpy.time.TimeRange` becomes the pair of its endpoints.
  * Raising an exception becomes returning `Except.error`.
  * External collaborators (the abstract `_get_url_for_timerange`,
    `_makeimap`, `_get_time_for_url` hooks, the configured download
    directory, `os.path.exists`, `os.path.expanduser`,
    `sunpy.util.replacement_filename`, `pathlib.Path.absolute`) are
    parameters of the embedded functions, so every theorem quantifies over
    their behaviour.
-/

/-- A Python value that can appear in the client's `map_` dictionary:
strings, quantities (`Int` here), raw time endpoints, a `TimeRange`, and the
dynamically created `minmax` named tuple whose two field names are recorded
with its values. -/
inductive PyVal where
  | str : String → PyVal
  | num : Int → PyVal
  | timeV : Int → PyVal
  | timeRangeV : Int → Int → PyVal
  | minmax : String → String → Int → Int → PyVal
deriving DecidableEq, Repr

/-- The client's `map_` dictionary: insertion-ordered string-keyed mapping. -/
abbrev PyMap := List (String × PyVal)

/-- `d.get(k)` / `d[k]` lookup on the embedded dictionary. -/
def pyLookup : PyMap → String → Option PyVal
  | [], _ => Option.none
  | (k', v) :: rest, k => if k = k' then some v else pyLookup rest k

/-- `d[k] = v` on the embedded dictionary: an existing key keeps its
position and gets the new value, a new key is appended (Python dict
assignment semantics). -/
def pyInsert : PyMap → String → PyVal → PyMap
  | [], k, v => [(k, v)]
  | (k', v') :: rest, k, v =>
    if k = k' then (k', v) :: rest else (k', v') :: pyInsert rest k v

/-- `str(v)` as used by `str.format` substitution.  The exact rendering of
the non-string values is irrelevant to the claims; strings substitute as
themselves, as in Python. -/
def pyValStr : PyVal → String
  | PyVal.str s => s
  | PyVal.num n => toString n
  | PyVal.timeV t => toString t
  | PyVal.timeRangeV a b => "TimeRange(" ++ toString a ++ ", " ++ toString b ++ ")"
  | PyVal.minmax f g a b =>
    "minmax(" ++ f ++ "=" ++ toString a ++ ", " ++ g ++ "=" ++ toString b ++ ")"

/-- Python's `str.lower()` on class names (character-wise, as the names are
ASCII). -/
def pyLower (s : String) : String := String.mk (s.data.map Char.toLower)

/-- A query attribute as `GenericClient._makeargs` dispatches on it:
`timeA` is a `vso.attrs.Time` (start/end endpoints); `rangeA` is any other
`_Range` subclass, carrying its class name, whether it is a `Wavelength`,
and its `min`/`max`; `valueA` is any other attr that has a `.value`
(carrying its class name); `otherA` is an attr with none of these shapes
(e.g. `Extent`). -/
inductive QueryAttr where
  | timeA : Int → Int → QueryAttr
  | rangeA : String → Bool → Int → Int → QueryAttr
  | valueA : String → PyVal → QueryAttr
  | otherA : String → QueryAttr
deriving DecidableEq, Repr

/-- Whether the attr falls through every recognised shape of `_makeargs`. -/
def QueryAttr.isOtherA : QueryAttr → Bool
  | QueryAttr.otherA _ => true
  | _ => false

/-- The error `_makeargs` raises: Python
`ValueError("GenericClient can not add <name> to the map_ dictionary ...")`
(the spec's `UnsupportedConstraintKind`). -/
inductive MakeErr where
  | valueError : String → MakeErr
deriving DecidableEq, Repr

/-- One iteration of the `for elem in args` loop of
`GenericClient._makeargs` (client.py lines 153-181), updating `map_`:
  * a `Time` writes `TimeRange`, `Time_start`, `Time_end`;
  * a `_Range` with `min == max` writes the scalar `min` under the
    lower-cased class name, otherwise a `minmax` named tuple whose field
    names carry the `wave` prefix exactly for `Wavelength`;
  * an attr with a `.value` writes that value under the lower-cased class
    name;
  * anything else raises `ValueError`. -/
def makeargsStep (m : PyMap) : QueryAttr → Except MakeErr PyMap
  | QueryAttr.timeA s e =>
    Except.ok
      (pyInsert
        (pyInsert (pyInsert m "TimeRange" (PyVal.timeRangeV s e))
          "Time_start" (PyVal.timeV s))
        "Time_end" (PyVal.timeV e))
  | QueryAttr.rangeA n w a b =>
    Except.ok
      (pyInsert m (pyLower n)
        (if a = b then PyVal.num a
         else
           PyVal.minmax ((if w then "wave" else "") ++ "min")
             ((if w then "wave" else "") ++ "max") a b))
  | QueryAttr.valueA n v => Except.ok (pyInsert m (pyLower n) v)
  | QueryAttr.otherA n => Except.error (MakeErr.valueError n)

/-- The whole `for elem in args` loop of `GenericClient._makeargs` over the
current `map_` (the subclass `_makeimap` hook is applied separately by
`search`). -/
def makeargsFold : List QueryAttr → PyMap → Except MakeErr PyMap
  | [], m => Except.ok m
  | a :: as, m =>
    match makeargsStep m a with
    | Except.error e => Except.error e
    | Except.ok m' => makeargsFold as m'

/-- Failure of `QueryResponseBlock.__init__`: `TimeRange(map0.get('Time_start'),
map0.get('Time_end'))` cannot be built because the entries are missing or are
not time values. -/
inductive BlockErr where
  | badTimeRange : BlockErr
deriving DecidableEq, Repr

/-- `QueryResponseBlock` (client.py lines 30-50): the record correlating a
url with the query metadata.  `wave` is `none` when `map0` has no
`wavelength` entry (Python stores `np.NaN`). -/
structure QueryResponseBlock where
  map0 : PyMap
  source : PyVal
  provider : PyVal
  physobs : PyVal
  instrument : PyVal
  url : String
  time : Int × Int
  wave : Option PyVal
deriving DecidableEq, Repr

/-- `QueryResponseBlock.__init__(map0, url, time)`:  the descriptive fields
default to the string `"Data not Available"`; `time` falls back to
`TimeRange(map0.get('Time_start'), map0.get('Time_end'))` when the given
time is `None`. -/
def mkQueryResponseBlock (m : PyMap) (url : String) (t : Option (Int × Int)) :
    Except BlockErr QueryResponseBlock :=
  match
    (match t with
     | some tr => Except.ok tr
     | Option.none =>
       match pyLookup m "Time_start", pyLookup m "Time_end" with
       | some (PyVal.timeV s), some (PyVal.timeV e) => Except.ok (s, e)
       | _, _ => Except.error BlockErr.badTimeRange) with
  | Except.error e => Except.error e
  | Except.ok tv =>
    Except.ok
      { map0 := m
        source := (pyLookup m "source").getD (PyVal.str "Data not Available")
        provider := (pyLookup m "provider").getD (PyVal.str "Data not Available")
        physobs := (pyLookup m "physobs").getD (PyVal.str "Data not Available")
        instrument := (pyLookup m "instrument").getD (PyVal.str "Data not Available")
        url := url
        time := tv
        wave := pyLookup m "wavelength" }

/-- Effectful `map` over a list in `Except`, stopping at the first error
(the evaluation order of the `iter_urls` generator consumed by the
`QueryResponse` list constructor). -/
def exceptMapM {α β ε : Type} (f : α → Except ε β) : List α → Except ε (List β)
  | [] => Except.ok []
  | x :: xs =>
    match f x with
    | Except.error e => Except.error e
    | Except.ok y =>
      match exceptMapM f xs with
      | Except.error e => Except.error e
      | Except.ok ys => Except.ok (y :: ys)

/-- `QueryResponse`: the ordered container of `QueryResponseBlock`s. -/
abbrev QueryResponse := List QueryResponseBlock

/-- `QueryResponse.create(amap, lst, time=None)` (client.py lines 68-72 with
the `iter_urls` helper): `time=None` pairs every url with `None`; a given
time list is zipped against the urls (`zip` truncates to the shorter). -/
def QueryResponse.create (m : PyMap) (urls : List String)
    (times : Option (List (Int × Int))) : Except BlockErr QueryResponse :=
  match times with
  | Option.none => exceptMapM (fun u => mkQueryResponseBlock m u Option.none) urls
  | some l => exceptMapM (fun p => mkQueryResponseBlock m p.1 (some p.2)) (urls.zip l)

/-- The error Python's `min()`/`max()` raise on an empty sequence
(`ValueError: min() arg is an empty sequence`); it is what the spec's
taxonomy calls `EmptySetError`. -/
inductive AggErr where
  | emptySeq : AggErr
deriving DecidableEq, Repr

/-- `min(...)` over a list of values, raising on an empty sequence. -/
def seqMin : List Int → Except AggErr Int
  | [] => Except.error AggErr.emptySeq
  | x :: xs => Except.ok (xs.foldl min x)

/-- `max(...)` over a list of values, raising on an empty sequence. -/
def seqMax : List Int → Except AggErr Int
  | [] => Except.error AggErr.emptySeq
  | x :: xs => Except.ok (xs.foldl max x)

/-- `QueryResponse.time_range` (client.py lines 74-79):
`TimeRange(min(qrblock.time.start ...), max(qrblock.time.end ...))`. -/
def QueryResponse.time_range (qr : QueryResponse) : Except AggErr (Int × Int) :=
  match seqMin (qr.map (fun b => b.time.1)) with
  | Except.error e => Except.error e
  | Except.ok a =>
    match seqMax (qr.map (fun b => b.time.2)) with
    | Except.error e => Except.error e
    | Except.ok b => Except.ok (a, b)

/-- Result of the `_get_time_for_url` hook as `search` tests it: the base
class returns `NotImplemented`; an overriding client returns a list of
per-url time ranges (an empty list is falsy in `if times and ...`). -/
inductive TimesResult where
  | notImpl : TimesResult
  | times : List (Int × Int) → TimesResult
deriving DecidableEq, Repr

/-- The subclass hooks and strategy capabilities `search` calls:
`makeimap` is the `_makeimap` mutation of `map_`; `getUrls` is
`_get_url_for_timerange(map_.get('TimeRange'), **kwergs)`; `getTimes` is
`_get_time_for_url(urls)`. -/
structure SearchModel where
  makeimap : PyMap → PyMap
  getUrls : Option PyVal → PyMap → List String
  getTimes : List String → TimesResult

/-- A search failure: the `ValueError` from `_makeargs` or a
`QueryResponseBlock` construction failure. -/
inductive SearchErr where
  | makeErr : MakeErr → SearchErr
  | blockErr : BlockErr → SearchErr
deriving DecidableEq, Repr

/-- What one `search` call produces: the response blocks and the `kwergs`
dictionary it passed to `_get_url_for_timerange` (a copy of `map_`). -/
structure SearchOut where
  resp : QueryResponse
  passedMap : PyMap
deriving DecidableEq, Repr

/-- `GenericClient.search` (client.py lines 272-291) over the client state
`st = self.map_`:  `_makeargs` folds the attrs into the *existing* `map_`
(which is reset only in `__init__`), `_makeimap` then mutates it,
`kwergs = copy.copy(self.map_)` is passed to `_get_url_for_timerange`,
and the response blocks use the per-url times only when `urls` is truthy
and `times` is a truthy non-`NotImplemented` value.  Returns the search
output together with the new `self.map_`. -/
def search (M : SearchModel) (args : List QueryAttr) (st : PyMap) :
    Except SearchErr (SearchOut × PyMap) :=
  match makeargsFold args st with
  | Except.error e => Except.error (SearchErr.makeErr e)
  | Except.ok m1 =>
    let m2 := M.makeimap m1
    let kwergs := m2
    let urls := M.getUrls (pyLookup m2 "TimeRange") kwergs
    match
      (if urls.isEmpty then QueryResponse.create m2 urls Option.none
       else
         match M.getTimes urls with
         | TimesResult.times l =>
           if l.isEmpty then QueryResponse.create m2 urls Option.none
           else QueryResponse.create m2 urls (some l)
         | TimesResult.notImpl => QueryResponse.create m2 urls Option.none) with
    | Except.error e => Except.error (SearchErr.blockErr e)
    | Except.ok bs => Except.ok ({ resp := bs, passedMap := kwergs }, m2)

/-- A deferred path accessor: what `functools.partial(simple_path, fname)`
is, a function awaiting the `(sock, url)` arguments the downloader supplies
at completion time. -/
abbrev DeferredPath := String → String → String

/-- `simple_path(path, sock, url)` (client.py lines 26-27): ignores the
download context and returns the precomputed path. -/
def simple_path (path : String) (sock : String) (url : String) : String := path

/-- Whether `pat` occurs as a substring of the char list (Python's
`pat in s`). -/
def chContains (pat : List Char) : List Char → Bool
  | [] => pat.isEmpty
  | c :: rest => List.isPrefixOf pat (c :: rest) || chContains pat rest

/-- Python's `pat in s` on strings. -/
def strContains (s pat : String) : Bool := chContains pat.data s.data

/-- `os.path.join(a, b)` for one extra component: an absolute `b` wins,
otherwise `b` is appended to `a` with a separator when needed. -/
def osJoin (a b : String) : String :=
  if b.data.head? = some '/' then b
  else if a.data = [] then b
  else if a.data.getLast? = some '/' then a ++ b
  else a ++ "/" ++ b

/-- `url.split('/')[-1]`: the characters after the last slash. -/
def lastComponentAux : List Char → List Char → List Char
  | [], acc => acc.reverse
  | c :: rest, acc =>
    if c = '/' then lastComponentAux rest [] else lastComponentAux rest (c :: acc)

/-- `url.split('/')[-1]`. -/
def lastComponent (url : String) : String := String.mk (lastComponentAux url.data [])

/-- An exception out of `_get_full_filenames`:
  * `unboundLocal` — `fname` referenced before assignment (the loop body has
    no branch assigning it when `path` already holds the file placeholder);
  * `attributeError` — `fname` holds last iteration's `partial` object,
    which has no `.format`;
  * `indexError` — `qres[i]` out of range;
  * `keyError f` — `str.format` referenced field `f` absent from the record
    (the spec's `MissingTemplateFieldError`);
  * `formatValueError` — a malformed template (unterminated field). -/
inductive PathErr where
  | unboundLocal : PathErr
  | attributeError : PathErr
  | indexError : PathErr
  | keyError : String → PathErr
  | formatValueError : PathErr
deriving DecidableEq, Repr

/-- `tmpl.format(**d)` scanner: outside a field (`acc = none`) characters
are copied and an opening brace starts a field; inside a field the name is
accumulated until the closing brace, whose value is looked up in `d`
(`KeyError` when absent) and substituted. -/
def pyFormatAux (d : PyMap) : List Char → Option (List Char) → Except PathErr String
  | [], Option.none => Except.ok ""
  | [], some _ => Except.error PathErr.formatValueError
  | c :: rest, Option.none =>
    if c = '\x7b' then pyFormatAux d rest (some [])
    else
      match pyFormatAux d rest Option.none with
      | Except.error e => Except.error e
      | Except.ok t => Except.ok (String.mk [c] ++ t)
  | c :: rest, some acc =>
    if c = '\x7d' then
      match pyLookup d (String.mk acc.reverse) with
      | Option.none => Except.error (PathErr.keyError (String.mk acc.reverse))
      | some v =>
        match pyFormatAux d rest Option.none with
        | Except.error e => Except.error e
        | Except.ok t => Except.ok (pyValStr v ++ t)
    else pyFormatAux d rest (some (c :: acc))

/-- `tmpl.format(**d)`. -/
def pyFormat (tmpl : String) (d : PyMap) : Except PathErr String :=
  pyFormatAux d tmpl.data Option.none

/-- The state of the Python local variable `fname` across loop iterations
of `_get_full_filenames`: not yet assigned, holding a template string, or
holding the `partial(simple_path, ...)` object built at the end of the
previous iteration (recorded with its bound path). -/
inductive FnameState where
  | unbound : FnameState
  | strV : String → FnameState
  | wrappedV : String → FnameState
deriving DecidableEq, Repr

/-- The external collaborators of path resolution and fetch:
`default_dir` is `sunpy.config.get("downloads", "download_dir")`;
`exists_` is `os.path.exists`; `repl` is `sunpy.util.replacement_filename`;
`expand` is `os.path.expanduser`; `absFn` is `str(pathlib.Path.absolute())`. -/
structure FetchParams where
  default_dir : String
  exists_ : String → Bool
  repl : String → String
  expand : String → String
  absFn : String → String

/-- The `for i, filename in enumerate(filenames)` loop of
`GenericClient._get_full_filenames` (client.py lines 242-259).  Each
iteration recomputes `fname` when `path` is `None` or is a string without
the `'\x7bfile\x7d'` placeholder, otherwise leaves the variable as the previous
iteration left it (unassigned on the first iteration); it then formats the
template with the record's `_map` plus `file = filename`, expands the user
directory, applies collision avoidance, and wraps the result in
`partial(simple_path, fname)`. -/
def getFullFilenamesGo (P : FetchParams) (qres : QueryResponse) (path : Option String) :
    List String → Nat → FnameState → Except PathErr (List DeferredPath)
  | [], _, _ => Except.ok []
  | filename :: rest, i, fst =>
    match
      (match path with
       | Option.none => FnameState.strV (osJoin P.default_dir "{file}")
       | some p =>
         if strContains p "{file}" = false then FnameState.strV (osJoin p "{file}")
         else fst) with
    | FnameState.unbound => Except.error PathErr.unboundLocal
    | FnameState.wrappedV _ => Except.error PathErr.attributeError
    | FnameState.strV tmpl =>
      match qres.get? i with
      | Option.none => Except.error PathErr.indexError
      | some blk =>
        match pyFormat tmpl (pyInsert blk.map0 "file" (PyVal.str filename)) with
        | Except.error e => Except.error e
        | Except.ok f1 =>
          let f2 := P.expand f1
          let f3 := if P.exists_ f2 then P.repl f2 else f2
          match getFullFilenamesGo P qres path rest (i + 1) (FnameState.wrappedV f3) with
          | Except.error e => Except.error e
          | Except.ok more => Except.ok (simple_path f3 :: more)

/-- `GenericClient._get_full_filenames(qres, filenames, path)` (client.py
lines 220-261). -/
def get_full_filenames (P : FetchParams) (qres : QueryResponse)
    (filenames : List String) (path : Option String) :
    Except PathErr (List DeferredPath) :=
  getFullFilenamesGo P qres path filenames 0 FnameState.unbound

/-- The `path` argument of `fetch` as Python sees its type: `None`, a
`str`, a `pathlib.Path` (recorded by its textual form), or any other
object (recorded by its type name). -/
inductive FetchPathArg where
  | noneArg : FetchPathArg
  | strArg : String → FetchPathArg
  | plPath : String → FetchPathArg
  | otherArg : String → FetchPathArg
deriving DecidableEq, Repr

/-- An exception out of `fetch`: the `TypeError` of the path type check, or
an exception propagating out of `_get_full_filenames`. -/
inductive FetchErr where
  | typeError : String → FetchErr
  | pathErr : PathErr → FetchErr
deriving DecidableEq, Repr

/-- The path type check at the top of `fetch` (client.py lines 312-319):
`None` passes through, a `pathlib.Path` becomes `str(path.absolute())`, any
non-`str` raises `TypeError`. -/
def fetchPathStr (path : FetchPathArg) (P : FetchParams) : Except FetchErr (Option String) :=
  match path with
  | FetchPathArg.noneArg => Except.ok Option.none
  | FetchPathArg.strArg s => Except.ok (some s)
  | FetchPathArg.plPath q => Except.ok (some (P.absFn q))
  | FetchPathArg.otherArg t => Except.error (FetchErr.typeError t)

/-- `GenericClient.fetch(qres, path)` (client.py lines 293-337) up to the
submission of the download tasks: checks the path type, extracts the urls
and their trailing filename components, resolves the destination paths, and
(on success) returns the `(url, deferred path)` pairs handed one by one to
`Downloader.download` — an exception earlier in the body means no download
task is ever submitted. -/
def fetch (P : FetchParams) (qres : QueryResponse) (path : FetchPathArg) :
    Except FetchErr (List (String × DeferredPath)) :=
  match fetchPathStr path P with
  | Except.error e => Except.error e
  | Except.ok ps =>
    let urls := qres.map (fun b => b.url)
    let filenames := urls.map lastComponent
    match get_full_filenames P qres filenames ps with
    | Except.error e => Except.error (FetchErr.pathErr e)
    | Except.ok paths => Except.ok (urls.zip paths)

/-- A concrete client whose `_makeimap` adds nothing and whose strategy
finds no urls. -/
def M0 : SearchModel :=
  { makeimap := id, getUrls := fun _ _ => [], getTimes := fun _ => TimesResult.notImpl }

/-- A concrete client whose strategy resolves one url and does not override
`_get_time_for_url`. -/
def M1 : SearchModel :=
  { makeimap := id, getUrls := fun _ _ => ["u1"], getTimes := fun _ => TimesResult.notImpl }

/-- Concrete external collaborators: default download directory `/dl`, no
existing files, identity replacement/expansion/absolutisation. -/
def P0 : FetchParams :=
  { default_dir := "/dl", exists_ := fun _ => false, repl := id, expand := id, absFn := id }

/-- A concrete response block with an empty raw-fields mapping. -/
def blk0 : QueryResponseBlock :=
  { map0 := [], source := PyVal.str "s", provider := PyVal.str "p",
    physobs := PyVal.str "o", instrument := PyVal.str "i",
    url := "http://h/a.txt", time := (0, 1), wave := Option.none }

/-- A concrete response block whose record time is the interval `(2, 10)`. -/
def blkA : QueryResponseBlock :=
  { map0 := [], source := PyVal.str "s", provider := PyVal.str "p",
    physobs := PyVal.str "o", instrument := PyVal.str "i",
    url := "uA", time := (2, 10), wave := Option.none }

/-- A concrete response block whose record time is the interval `(0, 7)`. -/
def blkB : QueryResponseBlock :=
  { map0 := [], source := PyVal.str "s", provider := PyVal.str "p",
    physobs := PyVal.str "o", instrument := PyVal.str "i",
    url := "uB", time := (0, 7), wave := Option.none }

/-- The descriptor a `Time(0, 5)` query leaves in `map_`. -/
def c7map : PyMap :=
  [("TimeRange", PyVal.timeRangeV 0 5), ("Time_start", PyVal.timeV 0),
   ("Time_end", PyVal.timeV 5)]

/-- The response block the `M1` client builds for url `u1` from `c7map`. -/
def c7blk : QueryResponseBlock :=
  { map0 := c7map, source := PyVal.str "Data not Available",
    provider := PyVal.str "Data not Available",
    physobs := PyVal.str "Data not Available",
    instrument := PyVal.str "Data not Available",
    url := "u1", time := (0, 5), wave := Option.none }

/-- The constraints of a first `search` call: `Instrument("X")` (an attr
with a `.value`). -/
def c4FirstAttrs : List QueryAttr := [QueryAttr.valueA "Instrument" (PyVal.str "X")]

/-- The constraints of a second `search` call on the same client:
`Source("S")` only — no instrument constraint. -/
def c4SecondAttrs : List QueryAttr := [QueryAttr.valueA "Source" (PyVal.str "S")]

/-- Two successive `search` calls on one fresh `M0` client (initial
`map_ = {}` from `__init__`): the dictionary the *second* call passes to
`_get_url_for_timerange`. -/
def c4SecondPassedMap : Option PyMap :=
  match search M0 c4FirstAttrs [] with
  | Except.ok (_, st1) =>
    match search M0 c4SecondAttrs st1 with
    | Except.ok (o2, _) => some o2.passedMap
    | Except.error _ => Option.none
  | Except.error _ => Option.none

/-! ## Helper lemmas -/

theorem pyLookup_pyInsert_self (m : PyMap) (k : String) (v : PyVal) :
    pyLookup (pyInsert m k v) k = some v := by
  induction m with
  | nil => simp [pyInsert, pyLookup]
  | cons p rest ih =>
    obtain ⟨k0, v0⟩ := p
    by_cases h : k = k0
    · subst h; simp [pyInsert, pyLookup]
    · simp [pyInsert, pyLookup, h, ih]

theorem pyLookup_pyInsert_ne (m : PyMap) (k k' : String) (v : PyVal)
    (h : k' ≠ k) : pyLookup (pyInsert m k v) k' = pyLookup m k' := by
  induction m with
  | nil => simp [pyInsert, pyLookup, h]
  | cons p rest ih =>
    obtain ⟨k0, v0⟩ := p
    by_cases h1 : k = k0
    · subst h1; simp [pyInsert, pyLookup, h]
    · by_cases h2 : k' = k0 <;> simp [pyInsert, pyLookup, h1, h2, ih]

theorem pyInsert_preserves (m : PyMap) (k : String) (v : PyVal) (k' : String)
    (h : pyLookup m k' ≠ Option.none) :
    pyLookup (pyInsert m k v) k' ≠ Option.none := by
  by_cases hk : k' = k
  · subst hk; rw [pyLookup_pyInsert_self]; simp
  · rw [pyLookup_pyInsert_ne m k k' v hk]; exact h

theorem makeargsStep_preserves (x : QueryAttr) (m m' : PyMap)
    (hs : makeargsStep m x = Except.ok m') (k : String)
    (h : pyLookup m k ≠ Option.none) : pyLookup m' k ≠ Option.none := by
  cases x with
  | timeA s e =>
    simp only [makeargsStep, Except.ok.injEq] at hs
    subst hs
    exact pyInsert_preserves _ _ _ _ (pyInsert_preserves _ _ _ _ (pyInsert_preserves _ _ _ _ h))
  | rangeA n w a b =>
    simp only [makeargsStep, Except.ok.injEq] at hs
    subst hs
    exact pyInsert_preserves _ _ _ _ h
  | valueA n v =>
    simp only [makeargsStep, Except.ok.injEq] at hs
    subst hs
    exact pyInsert_preserves _ _ _ _ h
  | otherA n => simp [makeargsStep] at hs

theorem makeargsFold_preserves (args : List QueryAttr) :
    ∀ st m, makeargsFold args st = Except.ok m →
      ∀ k, pyLookup st k ≠ Option.none → pyLookup m k ≠ Option.none := by
  induction args with
  | nil =>
    intro st m h k hk
    simp only [makeargsFold, Except.ok.injEq] at h
    subst h; exact hk
  | cons x xs ih =>
    intro st m h k hk
    simp only [makeargsFold] at h
    cases hs : makeargsStep st x with
    | error e => rw [hs] at h; cases h
    | ok m' =>
      rw [hs] at h
      exact ih m' m h k (makeargsStep_preserves x st m' hs k hk)

theorem makeargsStep_ok_of_not_other (x : QueryAttr) (m : PyMap)
    (hx : x.isOtherA = false) : ∃ m', makeargsStep m x = Except.ok m' := by
  cases x with
  | timeA s e => exact ⟨_, rfl⟩
  | rangeA n w a b => exact ⟨_, rfl⟩
  | valueA n v => exact ⟨_, rfl⟩
  | otherA n => simp [QueryAttr.isOtherA] at hx

theorem foldlMin_le_init (xs : List Int) : ∀ x : Int, xs.foldl min x ≤ x := by
  induction xs with
  | nil => intro x; simp
  | cons a xs ih =>
    intro x
    calc (a :: xs).foldl min x = xs.foldl min (min x a) := by simp [List.foldl]
    _ ≤ min x a := ih (min x a)
    _ ≤ x := min_le_left x a

theorem foldlMin_le_mem (xs : List Int) :
    ∀ (x y : Int), y ∈ xs → xs.foldl min x ≤ y := by
  induction xs with
  | nil => intro x y hy; cases hy
  | cons a xs ih =>
    intro x y hy
    rcases List.mem_cons.mp hy with h | h
    · subst h
      calc (y :: xs).foldl min x = xs.foldl min (min x y) := by simp [List.foldl]
      _ ≤ min x y := foldlMin_le_init xs (min x y)
      _ ≤ y := min_le_right x y
    · simpa [List.foldl] using ih (min x a) y h

theorem foldlMin_mem (xs : List Int) :
    ∀ x : Int, xs.foldl min x = x ∨ xs.foldl min x ∈ xs := by
  induction xs with
  | nil => intro x; left; rfl
  | cons a xs ih =>
    intro x
    rcases ih (min x a) with h | h
    · rcases min_choice x a with hm | hm
      · left; simpa [List.foldl, hm] using h
      · right; simp only [List.foldl] at *
        rw [h, hm]; exact List.mem_cons_self a xs
    · right
      simp only [List.foldl]
      exact List.mem_cons_of_mem a h

theorem foldlMax_init_le (xs : List Int) : ∀ x : Int, x ≤ xs.foldl max x := by
  induction xs with
  | nil => intro x; simp
  | cons a xs ih =>
    intro x
    calc x ≤ max x a := le_max_left x a
    _ ≤ xs.foldl max (max x a) := ih (max x a)
    _ = (a :: xs).foldl max x := by simp [List.foldl]

theorem foldlMax_mem_le (xs : List Int) :
    ∀ (x y : Int), y ∈ xs → y ≤ xs.foldl max x := by
  induction xs with
  | nil => intro x y hy; cases hy
  | cons a xs ih =>
    intro x y hy
    rcases List.mem_cons.mp hy with h | h
    · subst h
      calc y ≤ max x y := le_max_right x y
      _ ≤ xs.foldl max (max x y) := foldlMax_init_le xs (max x y)
      _ = (y :: xs).foldl max x := by simp [List.foldl]
    · simpa [List.foldl] using ih (max x a) y h

theorem foldlMax_mem (xs : List Int) :
    ∀ x : Int, xs.foldl max x = x ∨ xs.foldl max x ∈ xs := by
  induction xs with
  | nil => intro x; left; rfl
  | cons a xs ih =>
    intro x
    rcases ih (max x a) with h | h
    · rcases max_choice x a with hm | hm
      · left; simpa [List.foldl, hm] using h
      · right; simp only [List.foldl] at *
        rw [h, hm]; exact List.mem_cons_self a xs
    · right
      simp only [List.foldl]
      exact List.mem_cons_of_mem a h

/-! ## Claim theorems -/

/-- C1: for every constraint sequence processed by `_makeargs`, when the
fold reaches a closed-range constraint it stores, under the lower-cased
type name, the scalar `min` when `min == max`, and otherwise the two-field
`minmax` record whose field names are `\x7bprefix\x7dmin` / `\x7bprefix\x7dmax` with
prefix `wave` exactly for a wavelength range — and then continues with the
rest of the sequence. -/
theorem makeargs_range_store (xs ys : List QueryAttr) (n : String) (w : Bool)
    (a b : Int) (m0 : PyMap) :
    makeargsFold (xs ++ QueryAttr.rangeA n w a b :: ys) m0 =
      (makeargsFold xs m0).bind (fun m =>
        makeargsFold ys
          (pyInsert m (pyLower n)
            (if a = b then PyVal.num a
             else
               PyVal.minmax ((if w then "wave" else "") ++ "min")
                 ((if w then "wave" else "") ++ "max") a b))) := by
  induction xs generalizing m0 with
  | nil => simp [makeargsFold, makeargsStep, Except.bind]
  | cons x xs ih =>
    simp only [List.cons_append, makeargsFold]
    cases hs : makeargsStep m0 x with
    | error e => simp [Except.bind]
    | ok m' => simpa using ih m'

/-- C3: `time_range()` on a `QueryResponse` with zero records fails: the
`min` over the empty record sequence raises (the spec's `EmptySetError`,
Python's `ValueError` out of `min()`). -/
theorem time_range_empty_error :
    QueryResponse.time_range ([] : QueryResponse) = Except.error AggErr.emptySeq := rfl

/-- C5: descriptor construction (`_makeargs`) succeeds exactly on
constraints of the three recognised shapes: a sequence whose every
constraint matches one of them builds a descriptor with no error, and a
sequence containing a constraint matching none of them is a hard
`ValueError` (the spec's `UnsupportedConstraintKind`), never a silent
drop. -/
theorem makeargs_unsupported_hard_error (args : List QueryAttr) (m0 : PyMap) :
    ((∀ e ∈ args, e.isOtherA = false) → ∃ m, makeargsFold args m0 = Except.ok m) ∧
    ((∃ e ∈ args, e.isOtherA = true) →
      ∃ n, makeargsFold args m0 = Except.error (MakeErr.valueError n)) := by
  induction args generalizing m0 with
  | nil =>
    constructor
    · intro _; exact ⟨m0, rfl⟩
    · intro h; simp at h
  | cons x xs ih =>
    constructor
    · intro h
      have hx : x.isOtherA = false := h x (List.mem_cons_self x xs)
      obtain ⟨m', hm'⟩ := makeargsStep_ok_of_not_other x m0 hx
      obtain ⟨m, hm⟩ := (ih m').1 (fun e he => h e (List.mem_cons_of_mem x he))
      refine ⟨m, ?_⟩
      simp [makeargsFold, hm', hm]
    · intro h
      cases hx : x.isOtherA with
      | true =>
        cases x with
        | otherA n => exact ⟨n, by simp [makeargsFold, makeargsStep]⟩
        | timeA s e => simp [QueryAttr.isOtherA] at hx
        | rangeA n w a b => simp [QueryAttr.isOtherA] at hx
        | valueA n v => simp [QueryAttr.isOtherA] at hx
      | false =>
        obtain ⟨e, he, hE⟩ := h
        rcases List.mem_cons.mp he with rfl | he'
        · rw [hx] at hE; cases hE
        · obtain ⟨m', hm'⟩ := makeargsStep_ok_of_not_other x m0 hx
          obtain ⟨n, hn⟩ := (ih m').2 ⟨e, he', hE⟩
          exact ⟨n, by simp [makeargsFold, hm', hn]⟩

/-- C5 witness: the two shapes at concrete inputs — a sequence of one
scalar-with-value constraint builds a descriptor, and a sequence holding an
unrecognised `Extent` constraint is rejected with the hard error. -/
theorem makeargs_unsupported_hard_error_witness :
    (∃ m, makeargsFold [QueryAttr.valueA "Instrument" (PyVal.str "X")] [] = Except.ok m) ∧
    (∃ n, makeargsFold [QueryAttr.valueA "Instrument" (PyVal.str "X"),
        QueryAttr.otherA "Extent"] [] = Except.error (MakeErr.valueError n)) :=
  ⟨(makeargs_unsupported_hard_error
      [QueryAttr.valueA "Instrument" (PyVal.str "X")] []).1 (by decide),
   (makeargs_unsupported_hard_error
      [QueryAttr.valueA "Instrument" (PyVal.str "X"), QueryAttr.otherA "Extent"] []).2
     ⟨QueryAttr.otherA "Extent", by decide, rfl⟩⟩

/-- C6: over a non-empty `QueryResponse`, `time_range()` returns exactly
the interval from the minimum of the record start times to the maximum of
the record end times. -/
theorem time_range_minmax (qr : QueryResponse) (h : qr ≠ []) :
    ∃ a b, QueryResponse.time_range qr = Except.ok (a, b) ∧
      (∀ blk ∈ qr, a ≤ blk.time.1 ∧ blk.time.2 ≤ b) ∧
      (∃ blk ∈ qr, blk.time.1 = a) ∧ (∃ blk ∈ qr, blk.time.2 = b) := by
  cases qr with
  | nil => exact absurd rfl h
  | cons c cs =>
    refine ⟨_, _, rfl, ?_, ?_, ?_⟩
    · intro blk hblk
      rcases List.mem_cons.mp hblk with rfl | hb
      · exact ⟨foldlMin_le_init _ _, foldlMax_init_le _ _⟩
      · exact ⟨foldlMin_le_mem _ _ _ (List.mem_map_of_mem _ hb),
               foldlMax_mem_le _ _ _ (List.mem_map_of_mem _ hb)⟩
    · rcases foldlMin_mem (cs.map (fun b => b.time.1)) c.time.1 with hm | hm
      · exact ⟨c, List.mem_cons_self c cs, hm.symm⟩
      · obtain ⟨blk, hb, he⟩ := List.mem_map.mp hm
        exact ⟨blk, List.mem_cons_of_mem c hb, he⟩
    · rcases foldlMax_mem (cs.map (fun b => b.time.2)) c.time.2 with hm | hm
      · exact ⟨c, List.mem_cons_self c cs, hm.symm⟩
      · obtain ⟨blk, hb, he⟩ := List.mem_map.mp hm
        exact ⟨blk, List.mem_cons_of_mem c hb, he⟩

/-- C6 witness: on the two concrete records with times `(2, 10)` and
`(0, 7)` the aggregate interval is `(min of starts, max of ends)`. -/
theorem time_range_minmax_witness :
    ([blkA, blkB] : QueryResponse) ≠ [] ∧
    (∃ a b, QueryResponse.time_range [blkA, blkB] = Except.ok (a, b) ∧
      (∀ blk ∈ ([blkA, blkB] : QueryResponse), a ≤ blk.time.1 ∧ blk.time.2 ≤ b) ∧
      (∃ blk ∈ ([blkA, blkB] : QueryResponse), blk.time.1 = a) ∧
      (∃ blk ∈ ([blkA, blkB] : QueryResponse), blk.time.2 = b)) :=
  ⟨by simp, time_range_minmax [blkA, blkB] (by simp)⟩

/-- C4 counterexample: two successive `search` calls on one client — the
first constrains `Instrument("X")`, the second only `Source("S")` — and the
descriptor passed to the strategy by the second call still holds the first
call's `instrument` key (so it does not contain exactly the second call's
keys). -/
theorem search_descriptor_not_fresh :
    c4SecondPassedMap =
      some [("instrument", PyVal.str "X"), ("source", PyVal.str "S")] ∧
    Option.map (fun d => pyLookup d "instrument") c4SecondPassedMap =
      some (some (PyVal.str "X")) :=
  ⟨rfl, rfl⟩

/-- C4 amended: the descriptor is *not* rebuilt fresh per query — `map_` is
reset only in `__init__`, so every key present in the client state before a
`search` call is still present (possibly overwritten, last write wins) in
the descriptor that call passes to the resolution strategy (stated for a
subclass whose `_makeimap` adds nothing). -/
theorem search_carries_over_keys (M : SearchModel) (args : List QueryAttr)
    (st : PyMap) (o : SearchOut) (st' : PyMap) (k : String)
    (hid : M.makeimap = id)
    (h : search M args st = Except.ok (o, st'))
    (hk : pyLookup st k ≠ Option.none) :
    pyLookup o.passedMap k ≠ Option.none := by
  unfold search at h
  cases hf : makeargsFold args st with
  | error e => rw [hf] at h; cases h
  | ok m1 =>
    rw [hf, hid] at h
    simp only [id_eq] at h
    split at h
    · cases h
    · rename_i bs hbs
      injection h with h1
      injection h1 with ho hst
      rw [← ho]
      exact makeargsFold_preserves args st m1 hf k hk

/-- C4 amended witness: at the concrete second call the carried-over
`instrument` key is still present in the passed descriptor. -/
theorem search_carries_over_keys_witness :
    pyLookup ([("instrument", PyVal.str "X"), ("source", PyVal.str "S")] : PyMap)
      "instrument" ≠ Option.none :=
  search_carries_over_keys M0 c4SecondAttrs [("instrument", PyVal.str "X")]
    { resp := [],
      passedMap := [("instrument", PyVal.str "X"), ("source", PyVal.str "S")] }
    [("instrument", PyVal.str "X"), ("source", PyVal.str "S")] "instrument"
    rfl rfl (by decide)

theorem mkBlock_none_time (m : PyMap) (u : String) (s e : Int)
    (hs : pyLookup m "Time_start" = some (PyVal.timeV s))
    (he : pyLookup m "Time_end" = some (PyVal.timeV e)) :
    ∃ blk, mkQueryResponseBlock m u Option.none = Except.ok blk ∧
      blk.time = (s, e) := by
  unfold mkQueryResponseBlock
  rw [hs, he]
  exact ⟨_, rfl, rfl⟩

theorem create_none_time (m : PyMap) (s e : Int)
    (hs : pyLookup m "Time_start" = some (PyVal.timeV s))
    (he : pyLookup m "Time_end" = some (PyVal.timeV e)) :
    ∀ urls bs, QueryResponse.create m urls Option.none = Except.ok bs →
      ∀ blk ∈ bs, blk.time = (s, e) := by
  intro urls
  induction urls with
  | nil =>
    intro bs h blk hblk
    simp only [QueryResponse.create, exceptMapM, Except.ok.injEq] at h
    subst h
    cases hblk
  | cons u us ih =>
    intro bs h blk hblk
    obtain ⟨blk0, hb0, ht0⟩ := mkBlock_none_time m u s e hs he
    simp only [QueryResponse.create, exceptMapM] at h
    rw [hb0] at h
    cases hrest : exceptMapM (fun u => mkQueryResponseBlock m u Option.none) us with
    | error e2 => rw [hrest] at h; cases h
    | ok ys =>
      rw [hrest] at h
      injection h with h1
      subst h1
      rcases List.mem_cons.mp hblk with rfl | hin
      · exact ht0
      · exact ih ys hrest blk hin

/-- C7: when the client does not override `_get_time_for_url` (it reports
`NotImplemented` for every url list), every record of the returned
`QueryResponse` carries the query's overall time interval, rebuilt from the
descriptor's `Time_start` and `Time_end` entries. -/
theorem search_notimpl_time_fallback (M : SearchModel) (args : List QueryAttr)
    (st : PyMap) (o : SearchOut) (st' : PyMap) (s e : Int)
    (hni : ∀ urls, M.getTimes urls = TimesResult.notImpl)
    (h : search M args st = Except.ok (o, st'))
    (hs : pyLookup st' "Time_start" = some (PyVal.timeV s))
    (he : pyLookup st' "Time_end" = some (PyVal.timeV e)) :
    ∀ blk ∈ o.resp, blk.time = (s, e) := by
  unfold search at h
  cases hf : makeargsFold args st with
  | error e2 => rw [hf] at h; cases h
  | ok m1 =>
    rw [hf] at h
    simp only [hni, ite_self] at h
    cases hc : QueryResponse.create (M.makeimap m1)
        (M.getUrls (pyLookup (M.makeimap m1) "TimeRange") (M.makeimap m1))
        Option.none with
    | error e3 => rw [hc] at h; cases h
    | ok bs =>
      rw [hc] at h
      injection h with h1
      injection h1 with ho hst
      subst hst
      rw [← ho]
      exact create_none_time (M.makeimap m1) s e hs he _ bs hc

/-- C7 witness: the `M1` client with an unsupported `_get_time_for_url`,
queried with `Time(0, 5)`, yields a record whose time is the query interval
`(0, 5)` rebuilt from the descriptor. -/
theorem search_notimpl_time_fallback_witness : c7blk.time = (0, 5) :=
  search_notimpl_time_fallback M1 [QueryAttr.timeA 0 5] []
    { resp := [c7blk], passedMap := c7map } c7map 0 5
    (fun _ => rfl) rfl rfl rfl c7blk (List.mem_singleton_self c7blk)

theorem getFullFilenamesGo_deferred (P : FetchParams) (qres : QueryResponse)
    (path : Option String) :
    ∀ (fns : List String) (i : Nat) (fv : FnameState) (ps : List DeferredPath),
      getFullFilenamesGo P qres path fns i fv = Except.ok ps →
      ∀ p ∈ ps, ∃ f, ∀ sock url, p sock url = f := by
  intro fns
  induction fns with
  | nil =>
    intro i fv ps h p hp
    simp only [getFullFilenamesGo, Except.ok.injEq] at h
    subst h
    cases hp
  | cons filename rest ih =>
    intro i fv ps h p hp
    simp only [getFullFilenamesGo] at h
    split at h
    · cases h
    · cases h
    · rename_i tmpl htmpl
      split at h
      · cases h
      · rename_i blk hblk
        split at h
        · cases h
        · rename_i f1 hf1
          split at h
          · cases h
          · rename_i more hmore
            injection h with h1
            subst h1
            rcases List.mem_cons.mp hp with rfl | hin
            · exact ⟨_, fun _ _ => rfl⟩
            · exact ih _ _ more hmore p hin

/-- C9: every element of a successful `_get_full_filenames` result is a
deferred accessor — invoked with any downloaded-item context arguments
`(sock, url)` it returns the one path string computed at resolution time,
the same for every choice of those arguments. -/
theorem get_full_filenames_deferred (P : FetchParams) (qres : QueryResponse)
    (filenames : List String) (path : Option String) (ps : List DeferredPath)
    (h : get_full_filenames P qres filenames path = Except.ok ps) :
    ∀ p ∈ ps, ∃ f, ∀ sock url, p sock url = f :=
  getFullFilenamesGo_deferred P qres path filenames 0 FnameState.unbound ps h

/-- C9 witness: resolving one record with no explicit path yields the
deferred accessor of `/dl/a.txt`, constant in the context arguments. -/
theorem get_full_filenames_deferred_witness :
    ∃ f, ∀ sock url, simple_path "/dl/a.txt" sock url = f :=
  get_full_filenames_deferred P0 [blk0] ["a.txt"] Option.none
    [simple_path "/dl/a.txt"] rfl (simple_path "/dl/a.txt")
    (List.mem_singleton_self _)

/-- C2 (the code's actual behaviour at the failing input): when the `path`
argument already contains the file placeholder, no branch of the loop body
assigns `fname`, so the very first iteration raises `UnboundLocalError`
instead of using the given path as the format template. -/
theorem get_full_filenames_file_placeholder_unbound :
    get_full_filenames P0 [blk0] ["a.txt"] (some "/tmp/{file}") =
      Except.error PathErr.unboundLocal := rfl

/-- C8: when resolving the destination paths of some record fails because
its template references a field absent from the record's raw-fields
mapping (`KeyError`, the spec's `MissingTemplateFieldError`), `fetch`
propagates that error — it never reaches the task-submission loop, so no
download task of the batch is submitted (the task list exists only in the
`ok` result). -/
theorem fetch_missing_template_field (P : FetchParams) (qres : QueryResponse)
    (pa : FetchPathArg) (ps : Option String) (f : String)
    (h1 : fetchPathStr pa P = Except.ok ps)
    (h2 : get_full_filenames P qres ((qres.map (fun b => b.url)).map lastComponent) ps =
      Except.error (PathErr.keyError f)) :
    fetch P qres pa = Except.error (FetchErr.pathErr (PathErr.keyError f)) := by
  unfold fetch
  rw [h1]
  simp only [h2]

/-- C8 witness: a record with an empty raw-fields mapping fetched to the
path `/data/\x7binstrument\x7d` fails with the `instrument` key error before any
download task exists. -/
theorem fetch_missing_template_field_witness :
    fetch P0 [blk0] (FetchPathArg.strArg "/data/{instrument}") =
      Except.error (FetchErr.pathErr (PathErr.keyError "instrument")) :=
  fetch_missing_template_field P0 [blk0] (FetchPathArg.strArg "/data/{instrument}")
    (some "/data/{instrument}") "instrument" rfl rfl

/-- C10: `fetch` checks the type of `path` first: any argument that is
neither `None` nor a `str` nor a `pathlib.Path` raises `TypeError` at once
(before urls, filenames or paths are computed — the body short-circuits),
and a `pathlib.Path` is accepted and behaves exactly as the string
`str(path.absolute())`. -/
theorem fetch_path_type_check (P : FetchParams) (qres : QueryResponse)
    (t q : String) :
    fetch P qres (FetchPathArg.otherArg t) = Except.error (FetchErr.typeError t) ∧
    fetch P qres (FetchPathArg.plPath q) =
      fetch P qres (FetchPathArg.strArg (P.absFn q)) :=
  ⟨rfl, rfl⟩
